import Mathlib

/-!
Verification development for the recursive-descent parser of the
cpp-interpreter repository (src/source/parser.cpp).

The parser is shallowly embedded: the token-stream cursor becomes an
explicit offset threaded through a state monad over `Except`, each
`Parser::parse_*` member function becomes a Lean function of the same
name, and the C++ `while (true)` loops become fueled tail-recursive
helper functions.  Out-of-bounds accesses to the token vector
(undefined behaviour in C++) are modelled by the distinguished error
`PError.oob`, and a fuel counter (error `PError.fuel`) makes the
mutually recursive descent structurally terminating; neither error is
ever caught, so a run that returns anything other than these errors
performed only in-bounds accesses.
-/

/-- Token type tags, from the `Token::` enumerators referenced by
parser.cpp.  `OP` stands in for every lexer tag that parser.cpp never
compares against (e.g. the tags of `+`, `-`, `<=`, ...): the parser
inspects such tokens only through their literal text, so one
constructor models them all faithfully. -/
inductive TokType where
  | TYPE | IDENTIFIER
  | LPAREN | RPAREN | LBRACE | RBRACE | LBRACKET | RBRACKET
  | COMMA | SEMICOLON | ASSIGNMENT | MULTIPLY | INCREMENT | DECREMENT
  | IF | ELIF | ELSE | WHILE | FOR | REPEAT | RETURN | BREAK | CONTINUE
  | INTEGER_LITERAL | FLOAT_LITERAL | CHAR_LITERAL | STRING_LITERAL | BOOL_LITERAL
  | OP
  | END
  deriving DecidableEq, Repr

/-- A lexer token: a type tag plus literal text (struct `Token`). -/
structure Token where
  type : TokType
  value : String
  deriving DecidableEq, Repr

abbrev Tokens := List Token

/-- Declarators (`Declaration::NoPtrDeclarator` / `Declaration::PtrDeclarator`). -/
inductive Declarator where
  | noPtrDeclarator (name : String)
  | ptrDeclarator (name : String)
  deriving DecidableEq, Repr

/-- Expression nodes, one constructor per concrete `Expression` subclass
constructed in parser.cpp. -/
inductive Expression where
  | binaryOperation (op : String) (lhs rhs : Expression)
  | prefixExpression (op : String) (operand : Expression)
  | postfixIncrementExpression (base : Expression)
  | postfixDecrementExpression (base : Expression)
  | functionCallExpression (callee : Expression) (args : List Expression)
  | subscriptExpression (base : Expression) (index : Expression)
  | intLiteral (text : String)
  | floatLiteral (text : String)
  | charLiteral (text : String)
  | stringLiteral (text : String)
  | boolLiteral (text : String)
  | identifierExpression (text : String)
  | parenthesizedExpression (inner : Expression)

/-- `Declaration::InitDeclarator`: a declarator with an optional initializer. -/
structure InitDeclarator where
  declarator : Declarator
  initializer : Option Expression

/-- `ParameterDeclaration`: a type name plus one init-declarator. -/
structure ParameterDeclaration where
  type : String
  declarator : InitDeclarator

/-- `VarDeclaration`: a type name plus a list of init-declarators. -/
structure VarDeclaration where
  type : String
  declarators : List InitDeclarator

/-- Statement nodes, one constructor per concrete `Statement` subclass
constructed in parser.cpp. -/
inductive Statement where
  | compound (stmts : List Statement)
  | conditional (ifBranch : Expression × Statement)
      (elifBranches : List (Expression × Statement)) (elseBranch : Option Statement)
  | whileStatement (cond : Expression) (body : Statement)
  | repeatStatement (body : Statement)
  | forStatement
  | breakStatement
  | continueStatement
  | returnStatement (e : Expression)
  | declarationStatement (d : VarDeclaration)
  | expressionStatement (e : Expression)

/-- Declarations produced by `Parser::parse_declaration`. -/
inductive Declaration where
  | funcDecl (type : String) (declarator : Declarator)
      (params : List ParameterDeclaration) (body : Option Statement)
  | varDecl (v : VarDeclaration)

/-- The root node returned by `Parser::parse`. -/
structure TranslationUnit where
  declarations : List Declaration

/-- Parser failure: `syntaxError` models the thrown
`std::runtime_error`; `oob` models an out-of-bounds read of the token
vector (undefined behaviour in C++); `fuel` is the artifact of making
the recursion structurally terminating. -/
inductive PError where
  | syntaxError (msg : String)
  | oob
  | fuel
  deriving DecidableEq, Repr

/-- The parser monad: the mutable member `offset` threaded explicitly,
failure short-circuiting as the C++ exception does. -/
def PM (α : Type) : Type := Nat → Except PError (α × Nat)

instance : Monad PM where
  pure a := fun off => .ok (a, off)
  bind m k := fun off =>
    match m off with
    | .ok (a, off') => k a off'
    | .error e => .error e

/-- Abort with a parser error (the C++ `throw`). -/
def perror {α : Type} (e : PError) : PM α := fun _ => .error e

/-- Read `tokens[offset]` without advancing; out of bounds is `oob`. -/
def getTokM (ts : Tokens) : PM Token := fun off =>
  match ts.get? off with
  | some t => .ok (t, off)
  | none => .error PError.oob

/-- `++offset`. -/
def advanceM : PM Unit := fun off => .ok ((), off + 1)

/-- `Parser::check_token`: does the current token have one of the given types? -/
def check_token (ts : Tokens) (tys : List TokType) : PM Bool := do
  let t ← getTokM ts
  return tys.contains t.type

/-- `Parser::match_token`: consume the current token iff its type is among `tys`. -/
def match_token (ts : Tokens) (tys : List TokType) : PM Bool := do
  let b ← check_token ts tys
  if b then do
    advanceM
    return true
  else
    return false

/-- `Parser::extract_token`: consume and return the current token's text,
or raise `SyntaxError` carrying that text. -/
def extract_token (ts : Tokens) (tys : List TokType) : PM String := do
  let t ← getTokM ts
  if tys.contains t.type then do
    advanceM
    return t.value
  else
    perror (PError.syntaxError ("Unexpected token " ++ t.value))

/-- The scanning loop of `Parser::match_pattern` (local index `i`,
short-circuit `&&`). -/
def scan_pattern (ts : Tokens) : Nat → List TokType → Except PError Bool
  | _, [] => .ok true
  | i, ty :: rest =>
    match ts.get? i with
    | some t => if t.type = ty then scan_pattern ts (i + 1) rest else .ok false
    | none => .error PError.oob

/-- `Parser::match_pattern`: fixed-length lookahead; the member offset
is returned unchanged whatever the outcome. -/
def match_pattern (ts : Tokens) (pat : List TokType) : PM Bool := fun off =>
  match scan_pattern ts off pat with
  | .ok b => .ok (b, off)
  | .error e => .error e

/-- `throw std::runtime_error("Unexpected token " + tokens[offset].value)`. -/
def unexpected_token {α : Type} (ts : Tokens) : PM α := do
  let t ← getTokM ts
  perror (PError.syntaxError ("Unexpected token " ++ t.value))

/-- `Parser::operator_precedences` (higher binds tighter). -/
def operator_precedences : List (String × Nat) :=
  [("=", 0), ("+=", 0), ("-=", 0), ("*=", 0), ("/=", 0), ("%=", 0), ("**=", 0),
   ("||", 1),
   ("&&", 2),
   ("==", 3), ("!=", 3),
   ("<", 4), ("<=", 4), (">", 4), (">=", 4),
   ("+", 5), ("-", 5),
   ("*", 6), ("/", 6), ("%", 6),
   ("^", 7)]

/-- `operator_precedences.contains(op)` / `.at(op)` combined. -/
def precOf (s : String) : Option Nat := operator_precedences.lookup s

/-- `Parser::unary_operators`. -/
def unary_operators : List String := ["+", "-", "&", "*", "!", "++", "--"]

/-- `Parser::parse_declarator`. -/
def parse_declarator (ts : Tokens) : PM Declarator := do
  let p1 ← match_pattern ts [.MULTIPLY, .IDENTIFIER]
  if p1 then do
    let _ ← extract_token ts [.MULTIPLY]
    let n ← extract_token ts [.IDENTIFIER]
    return Declarator.ptrDeclarator n
  else do
    let p2 ← match_pattern ts [.IDENTIFIER]
    if p2 then do
      let n ← extract_token ts [.IDENTIFIER]
      return Declarator.noPtrDeclarator n
    else
      unexpected_token ts

/-- `Parser::parse_for_statement`: consumes nothing, returns the empty node. -/
def parse_for_statement : PM Statement := pure Statement.forStatement

/-- `Parser::parse_break_statement`. -/
def parse_break_statement (ts : Tokens) : PM Statement := do
  let _ ← extract_token ts [.SEMICOLON]
  return Statement.breakStatement

/-- `Parser::parse_continue_statement`. -/
def parse_continue_statement (ts : Tokens) : PM Statement := do
  let _ ← extract_token ts [.SEMICOLON]
  return Statement.continueStatement

mutual

/-- `Parser::parse_declaration`: classify by fixed lookahead. -/
def parse_declaration (fuel : Nat) (ts : Tokens) : PM Declaration :=
  match fuel with
  | 0 => perror PError.fuel
  | fuel + 1 => do
    let p1 ← match_pattern ts [.TYPE, .IDENTIFIER, .LPAREN]
    if p1 then parse_function_declaration fuel ts else
    let p2 ← match_pattern ts [.TYPE, .MULTIPLY, .IDENTIFIER, .LPAREN]
    if p2 then parse_function_declaration fuel ts else
    let p3 ← match_pattern ts [.TYPE, .IDENTIFIER]
    if p3 then do
      let v ← parse_var_declaration fuel ts
      return Declaration.varDecl v
    else
    let p4 ← match_pattern ts [.TYPE, .MULTIPLY, .IDENTIFIER]
    if p4 then do
      let v ← parse_var_declaration fuel ts
      return Declaration.varDecl v
    else
      unexpected_token ts

/-- `Parser::parse_function_declaration`. -/
def parse_function_declaration (fuel : Nat) (ts : Tokens) : PM Declaration :=
  match fuel with
  | 0 => perror PError.fuel
  | fuel + 1 => do
    let ty ← extract_token ts [.TYPE]
    let d ← parse_declarator ts
    let _ ← extract_token ts [.LPAREN]
    let rp ← match_token ts [.RPAREN]
    let args ←
      if rp then
        pure ([] : List ParameterDeclaration)
      else
        parse_parameter_list fuel ts []
    let lb ← match_token ts [.LBRACE]
    if lb then do
      let body ← parse_compound_statement fuel ts
      return Declaration.funcDecl ty d args (some body)
    else do
      let sc ← match_token ts [.SEMICOLON]
      if sc then
        return Declaration.funcDecl ty d args none
      else
        perror (PError.syntaxError "Unexpected token")

/-- The `while (true)` parameter loop of `parse_function_declaration`
(lines 37-47): after each parameter the token's literal text is
compared with "," and ")". -/
def parse_parameter_list (fuel : Nat) (ts : Tokens)
    (acc : List ParameterDeclaration) : PM (List ParameterDeclaration) :=
  match fuel with
  | 0 => perror PError.fuel
  | fuel + 1 => do
    let p ← parse_parameter_declaration fuel ts
    let t ← getTokM ts
    if t.value = "," then do
      advanceM
      parse_parameter_list fuel ts (acc ++ [p])
    else if t.value = ")" then do
      advanceM
      return acc ++ [p]
    else
      perror (PError.syntaxError "Missing closing parenthesis")

/-- `Parser::parse_parameter_declaration`: a type token plus one init-declarator. -/
def parse_parameter_declaration (fuel : Nat) (ts : Tokens) : PM ParameterDeclaration :=
  match fuel with
  | 0 => perror PError.fuel
  | fuel + 1 => do
    let ty ← extract_token ts [.TYPE]
    let d ← parse_init_declarator fuel ts
    return { type := ty, declarator := d }

/-- `Parser::parse_var_declaration`. -/
def parse_var_declaration (fuel : Nat) (ts : Tokens) : PM VarDeclaration :=
  match fuel with
  | 0 => perror PError.fuel
  | fuel + 1 => do
    let ty ← extract_token ts [.TYPE]
    let ds ← parse_init_declarator_list fuel ts []
    return { type := ty, declarators := ds }

/-- The `while (true)` init-declarator loop of `parse_var_declaration`. -/
def parse_init_declarator_list (fuel : Nat) (ts : Tokens)
    (acc : List InitDeclarator) : PM (List InitDeclarator) :=
  match fuel with
  | 0 => perror PError.fuel
  | fuel + 1 => do
    let d ← parse_init_declarator fuel ts
    let c ← match_token ts [.COMMA]
    if c then
      parse_init_declarator_list fuel ts (acc ++ [d])
    else do
      let s ← match_token ts [.SEMICOLON]
      if s then
        return acc ++ [d]
      else
        unexpected_token ts

/-- `Parser::parse_init_declarator`: declarator, then optional `=` initializer. -/
def parse_init_declarator (fuel : Nat) (ts : Tokens) : PM InitDeclarator :=
  match fuel with
  | 0 => perror PError.fuel
  | fuel + 1 => do
    let d ← parse_declarator ts
    let a ← match_token ts [.ASSIGNMENT]
    if a then do
      let e ← parse_expression fuel ts
      return { declarator := d, initializer := some e }
    else
      return { declarator := d, initializer := none }

/-- `Parser::parse_statement`: dispatch on the leading token. -/
def parse_statement (fuel : Nat) (ts : Tokens) : PM Statement :=
  match fuel with
  | 0 => perror PError.fuel
  | fuel + 1 => do
    let lb ← match_token ts [.LBRACE]
    if lb then parse_compound_statement fuel ts else
    let i ← match_token ts [.IF]
    if i then parse_conditional_statement fuel ts else
    let c1 ← check_token ts [.WHILE, .FOR, .REPEAT]
    if c1 then parse_loop_statement fuel ts else
    let c2 ← check_token ts [.RETURN, .BREAK, .CONTINUE]
    if c2 then parse_jump_statement fuel ts else
    let c3 ← check_token ts [.TYPE]
    if c3 then parse_declaration_statement fuel ts
    else parse_expression_statement fuel ts

/-- `Parser::parse_compound_statement`. -/
def parse_compound_statement (fuel : Nat) (ts : Tokens) : PM Statement :=
  match fuel with
  | 0 => perror PError.fuel
  | fuel + 1 => do
    let ss ← parse_statement_list fuel ts []
    return Statement.compound ss

/-- The `while (!match_token(RBRACE))` loop of `parse_compound_statement`. -/
def parse_statement_list (fuel : Nat) (ts : Tokens)
    (acc : List Statement) : PM (List Statement) :=
  match fuel with
  | 0 => perror PError.fuel
  | fuel + 1 => do
    let r ← match_token ts [.RBRACE]
    if r then
      return acc
    else do
      let s ← parse_statement fuel ts
      parse_statement_list fuel ts (acc ++ [s])

/-- `Parser::parse_conditional_statement` (the `if` token is already consumed). -/
def parse_conditional_statement (fuel : Nat) (ts : Tokens) : PM Statement :=
  match fuel with
  | 0 => perror PError.fuel
  | fuel + 1 => do
    let _ ← extract_token ts [.LPAREN]
    let c ← parse_expression fuel ts
    let _ ← extract_token ts [.RPAREN]
    let s ← parse_statement fuel ts
    let elifs ← parse_elif_list fuel ts []
    let e ← match_token ts [.ELSE]
    if e then do
      let es ← parse_statement fuel ts
      return Statement.conditional (c, s) elifs (some es)
    else
      return Statement.conditional (c, s) elifs none

/-- The `while (match_token(ELIF))` loop of `parse_conditional_statement`. -/
def parse_elif_list (fuel : Nat) (ts : Tokens)
    (acc : List (Expression × Statement)) : PM (List (Expression × Statement)) :=
  match fuel with
  | 0 => perror PError.fuel
  | fuel + 1 => do
    let e ← match_token ts [.ELIF]
    if e then do
      let _ ← extract_token ts [.LPAREN]
      let c ← parse_expression fuel ts
      let _ ← extract_token ts [.RPAREN]
      let s ← parse_statement fuel ts
      parse_elif_list fuel ts (acc ++ [(c, s)])
    else
      return acc

/-- `Parser::parse_loop_statement`. -/
def parse_loop_statement (fuel : Nat) (ts : Tokens) : PM Statement :=
  match fuel with
  | 0 => perror PError.fuel
  | fuel + 1 => do
    let w ← match_token ts [.WHILE]
    if w then parse_while_statement fuel ts else
    let f ← match_token ts [.FOR]
    if f then parse_for_statement
    else do
      let _ ← extract_token ts [.REPEAT]
      parse_repeat_statement fuel ts

/-- `Parser::parse_while_statement`. -/
def parse_while_statement (fuel : Nat) (ts : Tokens) : PM Statement :=
  match fuel with
  | 0 => perror PError.fuel
  | fuel + 1 => do
    let _ ← extract_token ts [.LPAREN]
    let c ← parse_expression fuel ts
    let _ ← extract_token ts [.RPAREN]
    let s ← parse_statement fuel ts
    return Statement.whileStatement c s

/-- `Parser::parse_repeat_statement`. -/
def parse_repeat_statement (fuel : Nat) (ts : Tokens) : PM Statement :=
  match fuel with
  | 0 => perror PError.fuel
  | fuel + 1 => do
    let s ← parse_statement fuel ts
    return Statement.repeatStatement s

/-- `Parser::parse_jump_statement`. -/
def parse_jump_statement (fuel : Nat) (ts : Tokens) : PM Statement :=
  match fuel with
  | 0 => perror PError.fuel
  | fuel + 1 => do
    let b ← match_token ts [.BREAK]
    if b then parse_break_statement ts else
    let c ← match_token ts [.CONTINUE]
    if c then parse_continue_statement ts
    else do
      let _ ← extract_token ts [.RETURN]
      parse_return_statement fuel ts

/-- `Parser::parse_return_statement`. -/
def parse_return_statement (fuel : Nat) (ts : Tokens) : PM Statement :=
  match fuel with
  | 0 => perror PError.fuel
  | fuel + 1 => do
    let e ← parse_expression fuel ts
    let _ ← extract_token ts [.SEMICOLON]
    return Statement.returnStatement e

/-- `Parser::parse_declaration_statement`. -/
def parse_declaration_statement (fuel : Nat) (ts : Tokens) : PM Statement :=
  match fuel with
  | 0 => perror PError.fuel
  | fuel + 1 => do
    let v ← parse_var_declaration fuel ts
    return Statement.declarationStatement v

/-- `Parser::parse_expression_statement`. -/
def parse_expression_statement (fuel : Nat) (ts : Tokens) : PM Statement :=
  match fuel with
  | 0 => perror PError.fuel
  | fuel + 1 => do
    let e ← parse_expression fuel ts
    let _ ← extract_token ts [.SEMICOLON]
    return Statement.expressionStatement e

/-- `Parser::parse_expression`. -/
def parse_expression (fuel : Nat) (ts : Tokens) : PM Expression :=
  match fuel with
  | 0 => perror PError.fuel
  | fuel + 1 => parse_binary_expression fuel ts 0

/-- `Parser::parse_binary_expression(min_precedence)`, entry part. -/
def parse_binary_expression (fuel : Nat) (ts : Tokens) (minPrec : Nat) : PM Expression :=
  match fuel with
  | 0 => perror PError.fuel
  | fuel + 1 => do
    let lhs ← parse_unary_expression fuel ts
    parse_binary_loop fuel ts minPrec lhs

/-- The `for` loop of `parse_binary_expression`: while the current
token's text is a known operator with precedence >= the minimum,
consume it and recurse with that operator's own precedence. -/
def parse_binary_loop (fuel : Nat) (ts : Tokens) (minPrec : Nat)
    (lhs : Expression) : PM Expression :=
  match fuel with
  | 0 => perror PError.fuel
  | fuel + 1 => do
    let t ← getTokM ts
    match precOf t.value with
    | some p =>
      if minPrec ≤ p then do
        advanceM
        let rhs ← parse_binary_expression fuel ts p
        parse_binary_loop fuel ts minPrec (Expression.binaryOperation t.value lhs rhs)
      else
        return lhs
    | none => return lhs

/-- `Parser::parse_unary_expression`. -/
def parse_unary_expression (fuel : Nat) (ts : Tokens) : PM Expression :=
  match fuel with
  | 0 => perror PError.fuel
  | fuel + 1 => do
    let t ← getTokM ts
    if unary_operators.contains t.value then do
      advanceM
      let e ← parse_unary_expression fuel ts
      return Expression.prefixExpression t.value e
    else
      parse_postfix_expression fuel ts

/-- `Parser::parse_postfix_expression`, entry part. -/
def parse_postfix_expression (fuel : Nat) (ts : Tokens) : PM Expression :=
  match fuel with
  | 0 => perror PError.fuel
  | fuel + 1 => do
    let b ← parse_primary_expression fuel ts
    parse_postfix_loop fuel ts b

/-- The `while (true)` loop of `parse_postfix_expression`. -/
def parse_postfix_loop (fuel : Nat) (ts : Tokens) (base : Expression) : PM Expression :=
  match fuel with
  | 0 => perror PError.fuel
  | fuel + 1 => do
    let i ← match_token ts [.INCREMENT]
    if i then parse_postfix_loop fuel ts (Expression.postfixIncrementExpression base) else
    let d ← match_token ts [.DECREMENT]
    if d then parse_postfix_loop fuel ts (Expression.postfixDecrementExpression base) else
    let l ← match_token ts [.LPAREN]
    if l then do
      let args ← parse_function_call_expression fuel ts
      parse_postfix_loop fuel ts (Expression.functionCallExpression base args)
    else do
      let lb ← match_token ts [.LBRACKET]
      if lb then do
        let ix ← parse_subscript_expression fuel ts
        parse_postfix_loop fuel ts (Expression.subscriptExpression base ix)
      else
        return base

/-- `Parser::parse_function_call_expression` (the `(` is already
consumed): argument list as written in the source, including the
unconditional final `extract_token(RPAREN)`. -/
def parse_function_call_expression (fuel : Nat) (ts : Tokens) : PM (List Expression) :=
  match fuel with
  | 0 => perror PError.fuel
  | fuel + 1 => do
    let rp ← match_token ts [.RPAREN]
    let args ←
      if rp then
        pure ([] : List Expression)
      else
        parse_call_arguments fuel ts []
    let _ ← extract_token ts [.RPAREN]
    return args

/-- The `while (true)` argument loop of `parse_function_call_expression`:
after each argument, `match_token(COMMA)` then `extract_token(COMMA)`,
exactly as in the source. -/
def parse_call_arguments (fuel : Nat) (ts : Tokens)
    (acc : List Expression) : PM (List Expression) :=
  match fuel with
  | 0 => perror PError.fuel
  | fuel + 1 => do
    let e ← parse_expression fuel ts
    let c ← match_token ts [.COMMA]
    if c then do
      let _ ← extract_token ts [.COMMA]
      parse_call_arguments fuel ts (acc ++ [e])
    else
      return acc ++ [e]

/-- `Parser::parse_subscript_expression` (the `[` is already consumed). -/
def parse_subscript_expression (fuel : Nat) (ts : Tokens) : PM Expression :=
  match fuel with
  | 0 => perror PError.fuel
  | fuel + 1 => do
    let ix ← parse_expression fuel ts
    let _ ← extract_token ts [.RBRACKET]
    return ix

/-- `Parser::parse_primary_expression`. -/
def parse_primary_expression (fuel : Nat) (ts : Tokens) : PM Expression :=
  match fuel with
  | 0 => perror PError.fuel
  | fuel + 1 => do
    let c1 ← check_token ts [.INTEGER_LITERAL]
    if c1 then do
      let v ← extract_token ts [.INTEGER_LITERAL]
      return Expression.intLiteral v
    else
    let c2 ← check_token ts [.FLOAT_LITERAL]
    if c2 then do
      let v ← extract_token ts [.FLOAT_LITERAL]
      return Expression.floatLiteral v
    else
    let c3 ← check_token ts [.CHAR_LITERAL]
    if c3 then do
      let v ← extract_token ts [.CHAR_LITERAL]
      return Expression.charLiteral v
    else
    let c4 ← check_token ts [.STRING_LITERAL]
    if c4 then do
      let v ← extract_token ts [.STRING_LITERAL]
      return Expression.stringLiteral v
    else
    let c5 ← check_token ts [.BOOL_LITERAL]
    if c5 then do
      let v ← extract_token ts [.BOOL_LITERAL]
      return Expression.boolLiteral v
    else
    let c6 ← check_token ts [.IDENTIFIER]
    if c6 then do
      let v ← extract_token ts [.IDENTIFIER]
      return Expression.identifierExpression v
    else do
      let lp ← match_token ts [.LPAREN]
      if lp then
        parse_parenthesized_expression fuel ts
      else
        unexpected_token ts

/-- `Parser::parse_parenthesized_expression` (the `(` is already consumed). -/
def parse_parenthesized_expression (fuel : Nat) (ts : Tokens) : PM Expression :=
  match fuel with
  | 0 => perror PError.fuel
  | fuel + 1 => do
    let e ← parse_expression fuel ts
    let _ ← extract_token ts [.RPAREN]
    return Expression.parenthesizedExpression e

/-- The `while (!match_token(END))` loop of `Parser::parse`. -/
def parse_translation_unit (fuel : Nat) (ts : Tokens)
    (acc : List Declaration) : PM (List Declaration) :=
  match fuel with
  | 0 => perror PError.fuel
  | fuel + 1 => do
    let e ← match_token ts [.END]
    if e then
      return acc
    else do
      let d ← parse_declaration fuel ts
      parse_translation_unit fuel ts (acc ++ [d])

end

/-- `Parser::parse`, run from offset 0 with enough fuel for the input
(the descent consumes at least one token every few recursive calls). -/
def parse (ts : Tokens) : Except PError (TranslationUnit × Nat) :=
  match parse_translation_unit (8 * ts.length + 8) ts [] 0 with
  | .ok (ds, off) => .ok (⟨ds⟩, off)
  | .error e => .error e

/-!
## Cursor-safety development

`SafeRes`/`SafeM` express that a parser computation started at an
offset not beyond the sentinel position `n` never performs an
out-of-bounds token access (no `PError.oob`), and, when it succeeds,
leaves the offset at or before the sentinel.
-/

/-- A result is safe for sentinel position `n`: success leaves the
offset at most `n`, failure is never the out-of-bounds marker. -/
def SafeRes {α : Type} (n : Nat) : Except PError (α × Nat) → Prop
  | .ok p => p.2 ≤ n
  | .error e => e ≠ PError.oob

/-- A computation is safe when run from any offset at most `n`. -/
def SafeM {α : Type} (n : Nat) (m : PM α) : Prop :=
  ∀ off, off ≤ n → SafeRes n (m off)

/-- A computation never reports an out-of-bounds access when run from
any offset at most `n` (used for the driver, which may consume the
sentinel itself). -/
def NoOOB {α : Type} (n : Nat) (m : PM α) : Prop :=
  ∀ off, off ≤ n → m off ≠ .error PError.oob

/-- The input contract of claim C6, strengthened: the stream ends in a
sentinel whose type is the end-of-input tag and whose literal text is
not a binary operator, not a unary operator, and also not the
parameter-separator texts "," and ")". -/
structure SentinelCtx (ts : Tokens) (n : Nat) : Prop where
  hlen : ts.length = n + 1
  hend : ∀ t, ts.get? n = some t →
    t.type = TokType.END ∧ precOf t.value = none ∧
      unary_operators.contains t.value = false ∧ t.value ≠ "," ∧ t.value ≠ ")"

theorem exists_get? {ts : Tokens} {off : Nat} (h : off < ts.length) :
    ∃ t, ts.get? off = some t := by
  cases hg : ts.get? off with
  | some t => exact ⟨t, rfl⟩
  | none =>
    have := List.get?_eq_none.mp hg
    omega

theorem SentinelCtx.get {ts : Tokens} {n : Nat} (C : SentinelCtx ts n)
    {off : Nat} (h : off ≤ n) : ∃ t, ts.get? off = some t := by
  apply exists_get?
  have := C.hlen
  omega

theorem bind_ok {α β : Type} {m : PM α} {k : α → PM β} {off : Nat}
    {a : α} {off' : Nat} (h : m off = .ok (a, off')) :
    (m >>= k) off = k a off' := by
  show (match m off with
    | .ok (a, off') => k a off'
    | .error e => .error e) = k a off'
  rw [h]

theorem bind_err {α β : Type} {m : PM α} {k : α → PM β} {off : Nat}
    {e : PError} (h : m off = .error e) : (m >>= k) off = .error e := by
  show (match m off with
    | .ok (a, off') => k a off'
    | .error e => .error e) = .error e
  rw [h]

theorem pure_apply {α : Type} (a : α) (off : Nat) :
    (pure a : PM α) off = .ok (a, off) := rfl

theorem getTokM_at {ts : Tokens} {off : Nat} {t : Token}
    (h : ts.get? off = some t) : getTokM ts off = .ok (t, off) := by
  unfold getTokM
  rw [h]

theorem perror_safe {α : Type} {n : Nat} {e : PError} (he : e ≠ PError.oob) :
    SafeM n (perror (α := α) e) := fun _ _ => he

theorem pure_safe {α : Type} {n : Nat} (a : α) : SafeM n (pure a : PM α) :=
  fun _ hoff => hoff

theorem bind_safe {α β : Type} {n : Nat} {m : PM α} {k : α → PM β}
    (hm : SafeM n m) (hk : ∀ a, SafeM n (k a)) : SafeM n (m >>= k) := by
  intro off hoff
  cases hres : m off with
  | ok p =>
    obtain ⟨a, off'⟩ := p
    have h2 : off' ≤ n := by have := hm off hoff; rwa [hres] at this
    rw [bind_ok hres]
    exact hk a off' h2
  | error e =>
    have h2 : e ≠ PError.oob := by have := hm off hoff; rwa [hres] at this
    rw [bind_err hres]
    exact h2

theorem ite_safe {α : Type} {n : Nat} {c : Prop} [Decidable c] {m₁ m₂ : PM α}
    (h₁ : SafeM n m₁) (h₂ : SafeM n m₂) : SafeM n (if c then m₁ else m₂) := by
  by_cases hc : c
  · simpa [hc] using h₁
  · simpa [hc] using h₂

theorem bool_eq_false {b : Bool} (h : ¬ (b = true)) : b = false := by
  cases b
  · rfl
  · exact absurd rfl h

theorem check_token_at {ts : Tokens} {off : Nat} {t : Token} (tys : List TokType)
    (h : ts.get? off = some t) :
    check_token ts tys off = .ok (tys.contains t.type, off) := by
  unfold check_token
  rw [bind_ok (getTokM_at h)]
  rfl

theorem check_token_safe {ts : Tokens} {n : Nat} (C : SentinelCtx ts n)
    (tys : List TokType) : SafeM n (check_token ts tys) := by
  intro off hoff
  obtain ⟨t, hget⟩ := C.get hoff
  rw [check_token_at tys hget]
  exact hoff

theorem match_token_at_mem {ts : Tokens} {off : Nat} {t : Token} {tys : List TokType}
    (h : ts.get? off = some t) (hm : tys.contains t.type = true) :
    match_token ts tys off = .ok (true, off + 1) := by
  unfold match_token
  rw [bind_ok (check_token_at tys h), if_pos hm]
  rfl

theorem match_token_at_not {ts : Tokens} {off : Nat} {t : Token} {tys : List TokType}
    (h : ts.get? off = some t) (hm : tys.contains t.type = false) :
    match_token ts tys off = .ok (false, off) := by
  unfold match_token
  rw [bind_ok (check_token_at tys h), if_neg (by rw [hm]; exact Bool.false_ne_true)]
  rfl

theorem match_token_safe {ts : Tokens} {n : Nat} (C : SentinelCtx ts n)
    {tys : List TokType} (hN : TokType.END ∉ tys) : SafeM n (match_token ts tys) := by
  intro off hoff
  obtain ⟨t, hget⟩ := C.get hoff
  by_cases hm : tys.contains t.type = true
  · rw [match_token_at_mem hget hm]
    show off + 1 ≤ n
    rcases Nat.lt_or_eq_of_le hoff with h | h
    · omega
    · subst h
      have hEND := (C.hend t hget).1
      rw [hEND] at hm
      have : TokType.END ∈ tys := by simpa using hm
      exact absurd this hN
  · rw [match_token_at_not hget (bool_eq_false hm)]
    exact hoff

theorem extract_token_at_mem {ts : Tokens} {off : Nat} {t : Token} {tys : List TokType}
    (h : ts.get? off = some t) (hm : tys.contains t.type = true) :
    extract_token ts tys off = .ok (t.value, off + 1) := by
  unfold extract_token
  rw [bind_ok (getTokM_at h), if_pos hm]
  rfl

theorem extract_token_at_not {ts : Tokens} {off : Nat} {t : Token} {tys : List TokType}
    (h : ts.get? off = some t) (hm : tys.contains t.type = false) :
    extract_token ts tys off =
      .error (PError.syntaxError ("Unexpected token " ++ t.value)) := by
  unfold extract_token
  rw [bind_ok (getTokM_at h), if_neg (by rw [hm]; exact Bool.false_ne_true)]
  rfl

theorem extract_token_safe {ts : Tokens} {n : Nat} (C : SentinelCtx ts n)
    {tys : List TokType} (hN : TokType.END ∉ tys) : SafeM n (extract_token ts tys) := by
  intro off hoff
  obtain ⟨t, hget⟩ := C.get hoff
  by_cases hm : tys.contains t.type = true
  · rw [extract_token_at_mem hget hm]
    show off + 1 ≤ n
    rcases Nat.lt_or_eq_of_le hoff with h | h
    · omega
    · subst h
      have hEND := (C.hend t hget).1
      rw [hEND] at hm
      have : TokType.END ∈ tys := by simpa using hm
      exact absurd this hN
  · rw [extract_token_at_not hget (bool_eq_false hm)]
    simp [SafeRes]

theorem scan_pattern_cons {ts : Tokens} {off : Nat} {t : Token}
    {ty : TokType} {rest : List TokType} (h : ts.get? off = some t) :
    scan_pattern ts off (ty :: rest) =
      if t.type = ty then scan_pattern ts (off + 1) rest else .ok false := by
  conv_lhs => rw [scan_pattern.eq_def]
  dsimp only
  rw [h]

theorem scan_pattern_safe {ts : Tokens} {n : Nat} (C : SentinelCtx ts n) :
    ∀ pat : List TokType, (∀ ty ∈ pat, ty ≠ TokType.END) →
      ∀ off, off ≤ n → ∃ b, scan_pattern ts off pat = .ok b := by
  intro pat
  induction pat with
  | nil => exact fun _ off _ => ⟨true, rfl⟩
  | cons ty rest ih =>
    intro hpat off hoff
    obtain ⟨t, hget⟩ := C.get hoff
    rw [scan_pattern_cons hget]
    by_cases hty : t.type = ty
    · rw [if_pos hty]
      have hne : off ≠ n := by
        intro he
        subst he
        have hEND := (C.hend t hget).1
        exact hpat ty (by simp) (by rw [← hty, hEND])
      exact ih (fun ty h => hpat ty (List.mem_cons_of_mem _ h)) (off + 1) (by omega)
    · rw [if_neg hty]
      exact ⟨false, rfl⟩

theorem match_pattern_at {ts : Tokens} {pat : List TokType} {off : Nat} {b : Bool}
    (h : scan_pattern ts off pat = .ok b) : match_pattern ts pat off = .ok (b, off) := by
  unfold match_pattern
  rw [h]

theorem match_pattern_safe {ts : Tokens} {n : Nat} (C : SentinelCtx ts n)
    {pat : List TokType} (hpat : ∀ ty ∈ pat, ty ≠ TokType.END) :
    SafeM n (match_pattern ts pat) := by
  intro off hoff
  obtain ⟨b, hb⟩ := scan_pattern_safe C pat hpat off hoff
  rw [match_pattern_at hb]
  exact hoff

theorem unexpected_token_safe {α : Type} {ts : Tokens} {n : Nat}
    (C : SentinelCtx ts n) : SafeM n (unexpected_token (α := α) ts) := by
  intro off hoff
  obtain ⟨t, hget⟩ := C.get hoff
  unfold unexpected_token
  rw [bind_ok (getTokM_at hget)]
  simp [perror, SafeRes]

theorem parse_declarator_safe {ts : Tokens} {n : Nat} (C : SentinelCtx ts n) :
    SafeM n (parse_declarator ts) := by
  unfold parse_declarator
  apply bind_safe (match_pattern_safe C (by decide))
  intro p1
  apply ite_safe
  · apply bind_safe (extract_token_safe C (by decide))
    intro _
    apply bind_safe (extract_token_safe C (by decide))
    intro nm
    exact pure_safe _
  · apply bind_safe (match_pattern_safe C (by decide))
    intro p2
    apply ite_safe
    · apply bind_safe (extract_token_safe C (by decide))
      intro nm
      exact pure_safe _
    · exact unexpected_token_safe C

theorem parse_for_statement_safe {n : Nat} : SafeM n parse_for_statement :=
  pure_safe _

theorem parse_break_statement_safe {ts : Tokens} {n : Nat} (C : SentinelCtx ts n) :
    SafeM n (parse_break_statement ts) := by
  unfold parse_break_statement
  apply bind_safe (extract_token_safe C (by decide))
  intro _
  exact pure_safe _

theorem parse_continue_statement_safe {ts : Tokens} {n : Nat} (C : SentinelCtx ts n) :
    SafeM n (parse_continue_statement ts) := by
  unfold parse_continue_statement
  apply bind_safe (extract_token_safe C (by decide))
  intro _
  exact pure_safe _

/-- Safety of every fueled parsing function at a given fuel, the motive
of the induction on fuel. -/
structure SafeAll (ts : Tokens) (n : Nat) (fuel : Nat) : Prop where
  declS : SafeM n (parse_declaration fuel ts)
  funcDeclS : SafeM n (parse_function_declaration fuel ts)
  paramListS : ∀ acc, SafeM n (parse_parameter_list fuel ts acc)
  paramDeclS : SafeM n (parse_parameter_declaration fuel ts)
  varDeclS : SafeM n (parse_var_declaration fuel ts)
  initListS : ∀ acc, SafeM n (parse_init_declarator_list fuel ts acc)
  initDeclS : SafeM n (parse_init_declarator fuel ts)
  stmtS : SafeM n (parse_statement fuel ts)
  compoundS : SafeM n (parse_compound_statement fuel ts)
  stmtListS : ∀ acc, SafeM n (parse_statement_list fuel ts acc)
  condS : SafeM n (parse_conditional_statement fuel ts)
  elifListS : ∀ acc, SafeM n (parse_elif_list fuel ts acc)
  loopS : SafeM n (parse_loop_statement fuel ts)
  whileS : SafeM n (parse_while_statement fuel ts)
  repeatS : SafeM n (parse_repeat_statement fuel ts)
  jumpS : SafeM n (parse_jump_statement fuel ts)
  returnS : SafeM n (parse_return_statement fuel ts)
  declStmtS : SafeM n (parse_declaration_statement fuel ts)
  exprStmtS : SafeM n (parse_expression_statement fuel ts)
  exprS : SafeM n (parse_expression fuel ts)
  binExprS : ∀ minPrec, SafeM n (parse_binary_expression fuel ts minPrec)
  binLoopS : ∀ minPrec lhs, SafeM n (parse_binary_loop fuel ts minPrec lhs)
  unaryS : SafeM n (parse_unary_expression fuel ts)
  postS : SafeM n (parse_postfix_expression fuel ts)
  postLoopS : ∀ base, SafeM n (parse_postfix_loop fuel ts base)
  callS : SafeM n (parse_function_call_expression fuel ts)
  callArgsS : ∀ acc, SafeM n (parse_call_arguments fuel ts acc)
  subscriptS : SafeM n (parse_subscript_expression fuel ts)
  primaryS : SafeM n (parse_primary_expression fuel ts)
  parenS : SafeM n (parse_parenthesized_expression fuel ts)

theorem fuel0_safe {α : Type} {n : Nat} {m : PM α} (h : m = perror PError.fuel) :
    SafeM n m := h ▸ perror_safe (by decide)

theorem safeAll_zero (ts : Tokens) (n : Nat) : SafeAll ts n 0 where
  declS := fuel0_safe rfl
  funcDeclS := fuel0_safe rfl
  paramListS := fun _ => fuel0_safe rfl
  paramDeclS := fuel0_safe rfl
  varDeclS := fuel0_safe rfl
  initListS := fun _ => fuel0_safe rfl
  initDeclS := fuel0_safe rfl
  stmtS := fuel0_safe rfl
  compoundS := fuel0_safe rfl
  stmtListS := fun _ => fuel0_safe rfl
  condS := fuel0_safe rfl
  elifListS := fun _ => fuel0_safe rfl
  loopS := fuel0_safe rfl
  whileS := fuel0_safe rfl
  repeatS := fuel0_safe rfl
  jumpS := fuel0_safe rfl
  returnS := fuel0_safe rfl
  declStmtS := fuel0_safe rfl
  exprStmtS := fuel0_safe rfl
  exprS := fuel0_safe rfl
  binExprS := fun _ => fuel0_safe rfl
  binLoopS := fun _ _ => fuel0_safe rfl
  unaryS := fuel0_safe rfl
  postS := fuel0_safe rfl
  postLoopS := fun _ => fuel0_safe rfl
  callS := fuel0_safe rfl
  callArgsS := fun _ => fuel0_safe rfl
  subscriptS := fuel0_safe rfl
  primaryS := fuel0_safe rfl
  parenS := fuel0_safe rfl

theorem advanceM_at (off : Nat) : advanceM off = .ok ((), off + 1) := rfl

theorem parse_declaration_step {ts : Tokens} {n fuel : Nat} (C : SentinelCtx ts n)
    (ih : SafeAll ts n fuel) : SafeM n (parse_declaration (fuel + 1) ts) := by
  simp only [parse_declaration]
  apply bind_safe (match_pattern_safe C (by decide))
  intro p1
  apply ite_safe ih.funcDeclS
  apply bind_safe (match_pattern_safe C (by decide))
  intro p2
  apply ite_safe ih.funcDeclS
  apply bind_safe (match_pattern_safe C (by decide))
  intro p3
  apply ite_safe (bind_safe ih.varDeclS fun _ => pure_safe _)
  apply bind_safe (match_pattern_safe C (by decide))
  intro p4
  exact ite_safe (bind_safe ih.varDeclS fun _ => pure_safe _) (unexpected_token_safe C)

theorem parse_function_declaration_step {ts : Tokens} {n fuel : Nat}
    (C : SentinelCtx ts n) (ih : SafeAll ts n fuel) :
    SafeM n (parse_function_declaration (fuel + 1) ts) := by
  simp only [parse_function_declaration]
  apply bind_safe (extract_token_safe C (by decide))
  intro ty
  apply bind_safe (parse_declarator_safe C)
  intro d
  apply bind_safe (extract_token_safe C (by decide))
  intro _
  apply bind_safe (match_token_safe C (by decide))
  intro rp
  apply ite_safe
  · apply bind_safe (pure_safe _)
    intro args
    apply bind_safe (match_token_safe C (by decide))
    intro lb
    apply ite_safe (bind_safe ih.compoundS fun _ => pure_safe _)
    apply bind_safe (match_token_safe C (by decide))
    intro sc
    exact ite_safe (pure_safe _) (perror_safe (by decide))
  · apply bind_safe (ih.paramListS [])
    intro args
    apply bind_safe (match_token_safe C (by decide))
    intro lb
    apply ite_safe (bind_safe ih.compoundS fun _ => pure_safe _)
    apply bind_safe (match_token_safe C (by decide))
    intro sc
    exact ite_safe (pure_safe _) (perror_safe (by decide))

theorem parse_parameter_list_step {ts : Tokens} {n fuel : Nat}
    (C : SentinelCtx ts n) (ih : SafeAll ts n fuel) :
    ∀ acc, SafeM n (parse_parameter_list (fuel + 1) ts acc) := by
  intro acc
  simp only [parse_parameter_list]
  apply bind_safe ih.paramDeclS
  intro p
  intro off hoff
  obtain ⟨t, hget⟩ := C.get hoff
  rw [bind_ok (getTokM_at hget)]
  by_cases hc : t.value = ","
  · rw [if_pos hc]
    have hlt : off < n := by
      rcases Nat.lt_or_eq_of_le hoff with h | h
      · exact h
      · subst h
        exact absurd hc (C.hend t hget).2.2.2.1
    rw [bind_ok (advanceM_at off)]
    exact ih.paramListS _ (off + 1) (by omega)
  · rw [if_neg hc]
    by_cases hr : t.value = ")"
    · rw [if_pos hr]
      have hlt : off < n := by
        rcases Nat.lt_or_eq_of_le hoff with h | h
        · exact h
        · subst h
          exact absurd hr (C.hend t hget).2.2.2.2
      rw [bind_ok (advanceM_at off)]
      exact pure_safe _ (off + 1) (by omega)
    · rw [if_neg hr]
      exact perror_safe (by decide) off hoff

theorem parse_parameter_declaration_step {ts : Tokens} {n fuel : Nat}
    (C : SentinelCtx ts n) (ih : SafeAll ts n fuel) :
    SafeM n (parse_parameter_declaration (fuel + 1) ts) := by
  simp only [parse_parameter_declaration]
  apply bind_safe (extract_token_safe C (by decide))
  intro ty
  exact bind_safe ih.initDeclS fun _ => pure_safe _

theorem parse_var_declaration_step {ts : Tokens} {n fuel : Nat}
    (C : SentinelCtx ts n) (ih : SafeAll ts n fuel) :
    SafeM n (parse_var_declaration (fuel + 1) ts) := by
  simp only [parse_var_declaration]
  apply bind_safe (extract_token_safe C (by decide))
  intro ty
  exact bind_safe (ih.initListS []) fun _ => pure_safe _

theorem parse_init_declarator_list_step {ts : Tokens} {n fuel : Nat}
    (C : SentinelCtx ts n) (ih : SafeAll ts n fuel) :
    ∀ acc, SafeM n (parse_init_declarator_list (fuel + 1) ts acc) := by
  intro acc
  simp only [parse_init_declarator_list]
  apply bind_safe ih.initDeclS
  intro d
  apply bind_safe (match_token_safe C (by decide))
  intro c
  apply ite_safe (ih.initListS _)
  apply bind_safe (match_token_safe C (by decide))
  intro s
  exact ite_safe (pure_safe _) (unexpected_token_safe C)

theorem parse_init_declarator_step {ts : Tokens} {n fuel : Nat}
    (C : SentinelCtx ts n) (ih : SafeAll ts n fuel) :
    SafeM n (parse_init_declarator (fuel + 1) ts) := by
  simp only [parse_init_declarator]
  apply bind_safe (parse_declarator_safe C)
  intro d
  apply bind_safe (match_token_safe C (by decide))
  intro a
  exact ite_safe (bind_safe ih.exprS fun _ => pure_safe _) (pure_safe _)

theorem parse_statement_step {ts : Tokens} {n fuel : Nat}
    (C : SentinelCtx ts n) (ih : SafeAll ts n fuel) :
    SafeM n (parse_statement (fuel + 1) ts) := by
  simp only [parse_statement]
  apply bind_safe (match_token_safe C (by decide))
  intro lb
  apply ite_safe ih.compoundS
  apply bind_safe (match_token_safe C (by decide))
  intro i
  apply ite_safe ih.condS
  apply bind_safe (check_token_safe C _)
  intro c1
  apply ite_safe ih.loopS
  apply bind_safe (check_token_safe C _)
  intro c2
  apply ite_safe ih.jumpS
  apply bind_safe (check_token_safe C _)
  intro c3
  exact ite_safe ih.declStmtS ih.exprStmtS

theorem parse_compound_statement_step {ts : Tokens} {n fuel : Nat}
    (C : SentinelCtx ts n) (ih : SafeAll ts n fuel) :
    SafeM n (parse_compound_statement (fuel + 1) ts) := by
  simp only [parse_compound_statement]
  exact bind_safe (ih.stmtListS []) fun _ => pure_safe _

theorem parse_statement_list_step {ts : Tokens} {n fuel : Nat}
    (C : SentinelCtx ts n) (ih : SafeAll ts n fuel) :
    ∀ acc, SafeM n (parse_statement_list (fuel + 1) ts acc) := by
  intro acc
  simp only [parse_statement_list]
  apply bind_safe (match_token_safe C (by decide))
  intro r
  apply ite_safe (pure_safe _)
  exact bind_safe ih.stmtS fun _ => ih.stmtListS _

theorem parse_conditional_statement_step {ts : Tokens} {n fuel : Nat}
    (C : SentinelCtx ts n) (ih : SafeAll ts n fuel) :
    SafeM n (parse_conditional_statement (fuel + 1) ts) := by
  simp only [parse_conditional_statement]
  apply bind_safe (extract_token_safe C (by decide))
  intro _
  apply bind_safe ih.exprS
  intro c
  apply bind_safe (extract_token_safe C (by decide))
  intro _
  apply bind_safe ih.stmtS
  intro s
  apply bind_safe (ih.elifListS [])
  intro elifs
  apply bind_safe (match_token_safe C (by decide))
  intro e
  exact ite_safe (bind_safe ih.stmtS fun _ => pure_safe _) (pure_safe _)

theorem parse_elif_list_step {ts : Tokens} {n fuel : Nat}
    (C : SentinelCtx ts n) (ih : SafeAll ts n fuel) :
    ∀ acc, SafeM n (parse_elif_list (fuel + 1) ts acc) := by
  intro acc
  simp only [parse_elif_list]
  apply bind_safe (match_token_safe C (by decide))
  intro e
  apply ite_safe
  · apply bind_safe (extract_token_safe C (by decide))
    intro _
    apply bind_safe ih.exprS
    intro c
    apply bind_safe (extract_token_safe C (by decide))
    intro _
    apply bind_safe ih.stmtS
    intro s
    exact ih.elifListS _
  · exact pure_safe _

theorem parse_loop_statement_step {ts : Tokens} {n fuel : Nat}
    (C : SentinelCtx ts n) (ih : SafeAll ts n fuel) :
    SafeM n (parse_loop_statement (fuel + 1) ts) := by
  simp only [parse_loop_statement]
  apply bind_safe (match_token_safe C (by decide))
  intro w
  apply ite_safe ih.whileS
  apply bind_safe (match_token_safe C (by decide))
  intro f
  apply ite_safe parse_for_statement_safe
  apply bind_safe (extract_token_safe C (by decide))
  intro _
  exact ih.repeatS

theorem parse_while_statement_step {ts : Tokens} {n fuel : Nat}
    (C : SentinelCtx ts n) (ih : SafeAll ts n fuel) :
    SafeM n (parse_while_statement (fuel + 1) ts) := by
  simp only [parse_while_statement]
  apply bind_safe (extract_token_safe C (by decide))
  intro _
  apply bind_safe ih.exprS
  intro c
  apply bind_safe (extract_token_safe C (by decide))
  intro _
  exact bind_safe ih.stmtS fun _ => pure_safe _

theorem parse_repeat_statement_step {ts : Tokens} {n fuel : Nat}
    (C : SentinelCtx ts n) (ih : SafeAll ts n fuel) :
    SafeM n (parse_repeat_statement (fuel + 1) ts) := by
  simp only [parse_repeat_statement]
  exact bind_safe ih.stmtS fun _ => pure_safe _

theorem parse_jump_statement_step {ts : Tokens} {n fuel : Nat}
    (C : SentinelCtx ts n) (ih : SafeAll ts n fuel) :
    SafeM n (parse_jump_statement (fuel + 1) ts) := by
  simp only [parse_jump_statement]
  apply bind_safe (match_token_safe C (by decide))
  intro b
  apply ite_safe (parse_break_statement_safe C)
  apply bind_safe (match_token_safe C (by decide))
  intro c
  apply ite_safe (parse_continue_statement_safe C)
  apply bind_safe (extract_token_safe C (by decide))
  intro _
  exact ih.returnS

theorem parse_return_statement_step {ts : Tokens} {n fuel : Nat}
    (C : SentinelCtx ts n) (ih : SafeAll ts n fuel) :
    SafeM n (parse_return_statement (fuel + 1) ts) := by
  simp only [parse_return_statement]
  apply bind_safe ih.exprS
  intro e
  apply bind_safe (extract_token_safe C (by decide))
  intro _
  exact pure_safe _

theorem parse_declaration_statement_step {ts : Tokens} {n fuel : Nat}
    (C : SentinelCtx ts n) (ih : SafeAll ts n fuel) :
    SafeM n (parse_declaration_statement (fuel + 1) ts) := by
  simp only [parse_declaration_statement]
  exact bind_safe ih.varDeclS fun _ => pure_safe _

theorem parse_expression_statement_step {ts : Tokens} {n fuel : Nat}
    (C : SentinelCtx ts n) (ih : SafeAll ts n fuel) :
    SafeM n (parse_expression_statement (fuel + 1) ts) := by
  simp only [parse_expression_statement]
  apply bind_safe ih.exprS
  intro e
  apply bind_safe (extract_token_safe C (by decide))
  intro _
  exact pure_safe _

theorem parse_expression_step {ts : Tokens} {n fuel : Nat}
    (C : SentinelCtx ts n) (ih : SafeAll ts n fuel) :
    SafeM n (parse_expression (fuel + 1) ts) := by
  simp only [parse_expression]
  exact ih.binExprS 0

theorem parse_binary_expression_step {ts : Tokens} {n fuel : Nat}
    (C : SentinelCtx ts n) (ih : SafeAll ts n fuel) :
    ∀ minPrec, SafeM n (parse_binary_expression (fuel + 1) ts minPrec) := by
  intro minPrec
  simp only [parse_binary_expression]
  exact bind_safe ih.unaryS fun lhs => ih.binLoopS minPrec lhs

theorem parse_binary_loop_step {ts : Tokens} {n fuel : Nat}
    (C : SentinelCtx ts n) (ih : SafeAll ts n fuel) :
    ∀ minPrec lhs, SafeM n (parse_binary_loop (fuel + 1) ts minPrec lhs) := by
  intro minPrec lhs
  simp only [parse_binary_loop]
  intro off hoff
  obtain ⟨t, hget⟩ := C.get hoff
  rw [bind_ok (getTokM_at hget)]
  cases hp : precOf t.value with
  | some p =>
    dsimp only
    have hlt : off < n := by
      rcases Nat.lt_or_eq_of_le hoff with h | h
      · exact h
      · subst h
        rw [(C.hend t hget).2.1] at hp
        exact absurd hp (by simp)
    by_cases hge : minPrec ≤ p
    · rw [if_pos hge]
      rw [bind_ok (advanceM_at off)]
      exact bind_safe (ih.binExprS p) (fun rhs => ih.binLoopS minPrec _) (off + 1) (by omega)
    · rw [if_neg hge]
      exact pure_safe _ off hoff
  | none =>
    exact pure_safe _ off hoff

theorem parse_unary_expression_step {ts : Tokens} {n fuel : Nat}
    (C : SentinelCtx ts n) (ih : SafeAll ts n fuel) :
    SafeM n (parse_unary_expression (fuel + 1) ts) := by
  simp only [parse_unary_expression]
  intro off hoff
  obtain ⟨t, hget⟩ := C.get hoff
  rw [bind_ok (getTokM_at hget)]
  by_cases hc : unary_operators.contains t.value = true
  · rw [if_pos hc]
    have hlt : off < n := by
      rcases Nat.lt_or_eq_of_le hoff with h | h
      · exact h
      · subst h
        rw [(C.hend t hget).2.2.1] at hc
        exact absurd hc Bool.false_ne_true
    rw [bind_ok (advanceM_at off)]
    exact bind_safe ih.unaryS (fun e => pure_safe _) (off + 1) (by omega)
  · rw [if_neg hc]
    exact ih.postS off hoff

theorem parse_postfix_expression_step {ts : Tokens} {n fuel : Nat}
    (C : SentinelCtx ts n) (ih : SafeAll ts n fuel) :
    SafeM n (parse_postfix_expression (fuel + 1) ts) := by
  simp only [parse_postfix_expression]
  exact bind_safe ih.primaryS fun b => ih.postLoopS b

theorem parse_postfix_loop_step {ts : Tokens} {n fuel : Nat}
    (C : SentinelCtx ts n) (ih : SafeAll ts n fuel) :
    ∀ base, SafeM n (parse_postfix_loop (fuel + 1) ts base) := by
  intro base
  simp only [parse_postfix_loop]
  apply bind_safe (match_token_safe C (by decide))
  intro i
  apply ite_safe (ih.postLoopS _)
  apply bind_safe (match_token_safe C (by decide))
  intro d
  apply ite_safe (ih.postLoopS _)
  apply bind_safe (match_token_safe C (by decide))
  intro l
  apply ite_safe (bind_safe ih.callS fun args => ih.postLoopS _)
  apply bind_safe (match_token_safe C (by decide))
  intro lb
  exact ite_safe (bind_safe ih.subscriptS fun ix => ih.postLoopS _) (pure_safe _)

theorem parse_function_call_expression_step {ts : Tokens} {n fuel : Nat}
    (C : SentinelCtx ts n) (ih : SafeAll ts n fuel) :
    SafeM n (parse_function_call_expression (fuel + 1) ts) := by
  simp only [parse_function_call_expression]
  apply bind_safe (match_token_safe C (by decide))
  intro rp
  apply ite_safe
  · apply bind_safe (pure_safe _)
    intro args
    apply bind_safe (extract_token_safe C (by decide))
    intro _
    exact pure_safe _
  · apply bind_safe (ih.callArgsS [])
    intro args
    apply bind_safe (extract_token_safe C (by decide))
    intro _
    exact pure_safe _

theorem parse_call_arguments_step {ts : Tokens} {n fuel : Nat}
    (C : SentinelCtx ts n) (ih : SafeAll ts n fuel) :
    ∀ acc, SafeM n (parse_call_arguments (fuel + 1) ts acc) := by
  intro acc
  simp only [parse_call_arguments]
  apply bind_safe ih.exprS
  intro e
  apply bind_safe (match_token_safe C (by decide))
  intro c
  apply ite_safe
  · apply bind_safe (extract_token_safe C (by decide))
    intro _
    exact ih.callArgsS _
  · exact pure_safe _

theorem parse_subscript_expression_step {ts : Tokens} {n fuel : Nat}
    (C : SentinelCtx ts n) (ih : SafeAll ts n fuel) :
    SafeM n (parse_subscript_expression (fuel + 1) ts) := by
  simp only [parse_subscript_expression]
  apply bind_safe ih.exprS
  intro ix
  apply bind_safe (extract_token_safe C (by decide))
  intro _
  exact pure_safe _

theorem parse_primary_expression_step {ts : Tokens} {n fuel : Nat}
    (C : SentinelCtx ts n) (ih : SafeAll ts n fuel) :
    SafeM n (parse_primary_expression (fuel + 1) ts) := by
  simp only [parse_primary_expression]
  apply bind_safe (check_token_safe C _)
  intro c1
  apply ite_safe (bind_safe (extract_token_safe C (by decide)) fun v => pure_safe _)
  apply bind_safe (check_token_safe C _)
  intro c2
  apply ite_safe (bind_safe (extract_token_safe C (by decide)) fun v => pure_safe _)
  apply bind_safe (check_token_safe C _)
  intro c3
  apply ite_safe (bind_safe (extract_token_safe C (by decide)) fun v => pure_safe _)
  apply bind_safe (check_token_safe C _)
  intro c4
  apply ite_safe (bind_safe (extract_token_safe C (by decide)) fun v => pure_safe _)
  apply bind_safe (check_token_safe C _)
  intro c5
  apply ite_safe (bind_safe (extract_token_safe C (by decide)) fun v => pure_safe _)
  apply bind_safe (check_token_safe C _)
  intro c6
  apply ite_safe (bind_safe (extract_token_safe C (by decide)) fun v => pure_safe _)
  apply bind_safe (match_token_safe C (by decide))
  intro lp
  exact ite_safe ih.parenS (unexpected_token_safe C)

theorem parse_parenthesized_expression_step {ts : Tokens} {n fuel : Nat}
    (C : SentinelCtx ts n) (ih : SafeAll ts n fuel) :
    SafeM n (parse_parenthesized_expression (fuel + 1) ts) := by
  simp only [parse_parenthesized_expression]
  apply bind_safe ih.exprS
  intro e
  apply bind_safe (extract_token_safe C (by decide))
  intro _
  exact pure_safe _

theorem safeAll_succ {ts : Tokens} {n fuel : Nat}
    (C : SentinelCtx ts n) (ih : SafeAll ts n fuel) : SafeAll ts n (fuel + 1) where
  declS := parse_declaration_step C ih
  funcDeclS := parse_function_declaration_step C ih
  paramListS := parse_parameter_list_step C ih
  paramDeclS := parse_parameter_declaration_step C ih
  varDeclS := parse_var_declaration_step C ih
  initListS := parse_init_declarator_list_step C ih
  initDeclS := parse_init_declarator_step C ih
  stmtS := parse_statement_step C ih
  compoundS := parse_compound_statement_step C ih
  stmtListS := parse_statement_list_step C ih
  condS := parse_conditional_statement_step C ih
  elifListS := parse_elif_list_step C ih
  loopS := parse_loop_statement_step C ih
  whileS := parse_while_statement_step C ih
  repeatS := parse_repeat_statement_step C ih
  jumpS := parse_jump_statement_step C ih
  returnS := parse_return_statement_step C ih
  declStmtS := parse_declaration_statement_step C ih
  exprStmtS := parse_expression_statement_step C ih
  exprS := parse_expression_step C ih
  binExprS := parse_binary_expression_step C ih
  binLoopS := parse_binary_loop_step C ih
  unaryS := parse_unary_expression_step C ih
  postS := parse_postfix_expression_step C ih
  postLoopS := parse_postfix_loop_step C ih
  callS := parse_function_call_expression_step C ih
  callArgsS := parse_call_arguments_step C ih
  subscriptS := parse_subscript_expression_step C ih
  primaryS := parse_primary_expression_step C ih
  parenS := parse_parenthesized_expression_step C ih

theorem safeAll_of_ctx {ts : Tokens} {n : Nat} (C : SentinelCtx ts n) :
    ∀ fuel, SafeAll ts n fuel
  | 0 => safeAll_zero ts n
  | fuel + 1 => safeAll_succ C (safeAll_of_ctx C fuel)

theorem parse_translation_unit_noOOB {ts : Tokens} {n : Nat} (C : SentinelCtx ts n) :
    ∀ fuel acc off, off ≤ n →
      parse_translation_unit fuel ts acc off ≠ .error PError.oob
  | 0, acc, off, hoff => by
    intro h
    rw [show parse_translation_unit 0 ts acc = perror PError.fuel from rfl] at h
    exact PError.noConfusion (Except.error.inj h)
  | fuel + 1, acc, off, hoff => by
    obtain ⟨t, hget⟩ := C.get hoff
    simp only [parse_translation_unit]
    by_cases hm : ([TokType.END] : List TokType).contains t.type = true
    · rw [bind_ok (match_token_at_mem hget hm)]
      exact fun h => Except.noConfusion h
    · rw [bind_ok (match_token_at_not hget (bool_eq_false hm))]
      show (parse_declaration fuel ts >>= fun d =>
        parse_translation_unit fuel ts (acc ++ [d])) off ≠ .error PError.oob
      cases hres : parse_declaration fuel ts off with
      | ok p =>
        rw [bind_ok hres]
        have hsafe := (safeAll_of_ctx C fuel).declS off hoff
        rw [hres] at hsafe
        exact parse_translation_unit_noOOB C fuel (acc ++ [p.1]) p.2 hsafe
      | error e =>
        rw [bind_err hres]
        have hsafe := (safeAll_of_ctx C fuel).declS off hoff
        rw [hres] at hsafe
        intro h
        exact hsafe (Except.error.inj h)

theorem parse_ne_oob {ts : Tokens} {n : Nat} (C : SentinelCtx ts n) :
    parse ts ≠ .error PError.oob := by
  unfold parse
  cases hres : parse_translation_unit (8 * ts.length + 8) ts [] 0 with
  | ok p =>
    exact fun h => Except.noConfusion h
  | error e =>
    have hne := parse_translation_unit_noOOB C (8 * ts.length + 8) [] 0 (Nat.zero_le n)
    rw [hres] at hne
    intro h
    exact hne (by rw [Except.error.inj h])

theorem sentinelCtx_of_append {init : Tokens} {endTok : Token}
    (hty : endTok.type = TokType.END) (hprec : precOf endTok.value = none)
    (hun : unary_operators.contains endTok.value = false)
    (hc : endTok.value ≠ ",") (hr : endTok.value ≠ ")") :
    SentinelCtx (init ++ [endTok]) init.length where
  hlen := by simp
  hend := by
    intro t hget
    have hn : (init ++ [endTok]).get? init.length = some endTok := by
      rw [List.get?_append_right (le_refl _)]
      simp
    rw [hn] at hget
    injection hget with h
    subst h
    exact ⟨hty, hprec, hun, hc, hr⟩

/-!
## Claim theorems
-/

/-- C1: the claim says a call `( e1 , e2 , ... , en )` with n >= 0
arguments separated by single commas parses into a
FunctionCallExpression.  The code does not do this: after an argument,
`match_token(COMMA)` consumes the comma and then `extract_token(COMMA)`
demands a second one, so `f(1,2)` fails with `SyntaxError` at `2`; an
empty argument list `f()` likewise has its `)` consumed by
`match_token(RPAREN)` and then demands a second `)`; only a
double-comma-separated list such as `f(1,,2)` goes through.  This
theorem evaluates the code at those inputs. -/
theorem c1_call_arguments_double_comma :
    parse_postfix_expression 20
      [⟨TokType.IDENTIFIER, "f"⟩, ⟨TokType.LPAREN, "("⟩, ⟨TokType.INTEGER_LITERAL, "1"⟩,
       ⟨TokType.COMMA, ","⟩, ⟨TokType.INTEGER_LITERAL, "2"⟩, ⟨TokType.RPAREN, ")"⟩,
       ⟨TokType.SEMICOLON, ";"⟩] 0 =
      .error (PError.syntaxError "Unexpected token 2") ∧
    parse_postfix_expression 20
      [⟨TokType.IDENTIFIER, "f"⟩, ⟨TokType.LPAREN, "("⟩, ⟨TokType.RPAREN, ")"⟩,
       ⟨TokType.SEMICOLON, ";"⟩] 0 =
      .error (PError.syntaxError "Unexpected token ;") ∧
    parse_postfix_expression 20
      [⟨TokType.IDENTIFIER, "f"⟩, ⟨TokType.LPAREN, "("⟩, ⟨TokType.INTEGER_LITERAL, "1"⟩,
       ⟨TokType.COMMA, ","⟩, ⟨TokType.COMMA, ","⟩, ⟨TokType.INTEGER_LITERAL, "2"⟩,
       ⟨TokType.RPAREN, ")"⟩, ⟨TokType.SEMICOLON, ";"⟩] 0 =
      .ok (Expression.functionCallExpression (Expression.identifierExpression "f")
        [Expression.intLiteral "1", Expression.intLiteral "2"], 7) :=
  ⟨rfl, rfl, rfl⟩

/-- C2 counterexample: the parameter `int x = 5` of `int f(int x = 5);`
is accepted, and the resulting ParameterDeclaration carries the
initializer `5` — refuting the claim that a parameter followed by `=`
and an expression is not accepted as a parameter with an initializer. -/
theorem c2_param_initializer_accepted :
    parse [⟨TokType.TYPE, "int"⟩, ⟨TokType.IDENTIFIER, "f"⟩, ⟨TokType.LPAREN, "("⟩,
      ⟨TokType.TYPE, "int"⟩, ⟨TokType.IDENTIFIER, "x"⟩, ⟨TokType.ASSIGNMENT, "="⟩,
      ⟨TokType.INTEGER_LITERAL, "5"⟩, ⟨TokType.RPAREN, ")"⟩, ⟨TokType.SEMICOLON, ";"⟩,
      ⟨TokType.END, ""⟩] =
    .ok (⟨[Declaration.funcDecl "int" (Declarator.noPtrDeclarator "f")
      [{ type := "int",
         declarator := { declarator := Declarator.noPtrDeclarator "x",
                         initializer := some (Expression.intLiteral "5") } }] none]⟩, 10) :=
  rfl

/-- C2 (amended): a parsed parameter declaration consists of a type
token plus one init-declarator, and an optional `=` initializer in a
parameter IS accepted and recorded, because
`parse_parameter_declaration` delegates to `parse_init_declarator`. -/
theorem c2_param_is_type_plus_init_declarator (fuel : Nat) (ty x : String) :
    parse_parameter_declaration (fuel + 7)
      [⟨TokType.TYPE, ty⟩, ⟨TokType.IDENTIFIER, x⟩, ⟨TokType.ASSIGNMENT, "="⟩,
       ⟨TokType.INTEGER_LITERAL, "5"⟩, ⟨TokType.RPAREN, ")"⟩] 0 =
    .ok ({ type := ty,
           declarator := { declarator := Declarator.noPtrDeclarator x,
                           initializer := some (Expression.intLiteral "5") } }, 4) :=
  rfl

/-- C3 counterexample: on `int f ( ) 5` the function-declaration parser
fails at the token `5` (neither `{` nor `;` follows the parameter
list), but the raised SyntaxError is the fixed message "Unexpected
token", which is not of the text-carrying form "Unexpected token "
followed by the offending token's text `5`. -/
theorem c3_fixed_message_without_token_text :
    parse [⟨TokType.TYPE, "int"⟩, ⟨TokType.IDENTIFIER, "f"⟩, ⟨TokType.LPAREN, "("⟩,
      ⟨TokType.RPAREN, ")"⟩, ⟨TokType.INTEGER_LITERAL, "5"⟩, ⟨TokType.END, ""⟩] =
      .error (PError.syntaxError "Unexpected token") ∧
    "Unexpected token" ≠ "Unexpected token " ++ "5" :=
  ⟨rfl, by decide⟩

/-- C3 (amended): at an `extract_token` point, and at the explicit
`unexpected_token` raise sites (declaration classification, declarator,
init-declarator list, primary expression), the SyntaxError does carry
the literal text of the token at the failure position; the
malformed-parameter-list site ("Missing closing parenthesis") and the
function-declaration body site ("Unexpected token") are the exceptions
exhibited by the counterexample. -/
theorem c3_extract_error_carries_token_text (ts : Tokens) (off : Nat)
    (tys : List TokType) (t : Token) (hget : ts.get? off = some t)
    (hnot : t.type ∉ tys) :
    extract_token ts tys off =
      .error (PError.syntaxError ("Unexpected token " ++ t.value)) ∧
    unexpected_token (α := Declaration) ts off =
      .error (PError.syntaxError ("Unexpected token " ++ t.value)) := by
  constructor
  · exact extract_token_at_not hget (by simpa using hnot)
  · unfold unexpected_token
    rw [bind_ok (getTokM_at hget)]
    rfl

/-- C3 witness. -/
theorem c3_extract_error_carries_token_text_witness :
    extract_token [⟨TokType.SEMICOLON, ";"⟩] [TokType.TYPE] 0 =
      .error (PError.syntaxError ("Unexpected token " ++ ";")) ∧
    unexpected_token (α := Declaration) [⟨TokType.SEMICOLON, ";"⟩] 0 =
      .error (PError.syntaxError ("Unexpected token " ++ ";")) :=
  c3_extract_error_carries_token_text [⟨TokType.SEMICOLON, ";"⟩] 0 [TokType.TYPE]
    ⟨TokType.SEMICOLON, ";"⟩ rfl (by decide)

/-- C4: every binary operator of the precedence table parses
right-associatively: for tokens INT(1) op INT(2) op INT(3) `;` the
result is `op(1, op(2, 3))`, the right-grouped tree, because
`parse_binary_expression` recurses with the matched operator's own
precedence as the new minimum. -/
theorem c4_right_associative (op : String) (p : Nat)
    (hmem : (op, p) ∈ operator_precedences) :
    parse_expression 20
      [⟨TokType.INTEGER_LITERAL, "1"⟩, ⟨TokType.OP, op⟩, ⟨TokType.INTEGER_LITERAL, "2"⟩,
       ⟨TokType.OP, op⟩, ⟨TokType.INTEGER_LITERAL, "3"⟩, ⟨TokType.SEMICOLON, ";"⟩] 0 =
    .ok (Expression.binaryOperation op (Expression.intLiteral "1")
      (Expression.binaryOperation op (Expression.intLiteral "2")
        (Expression.intLiteral "3")), 5) := by
  fin_cases hmem <;> rfl

/-- C4 witness: the instance `1 - 2 - 3`. -/
theorem c4_right_associative_witness :
    parse_expression 20
      [⟨TokType.INTEGER_LITERAL, "1"⟩, ⟨TokType.OP, "-"⟩, ⟨TokType.INTEGER_LITERAL, "2"⟩,
       ⟨TokType.OP, "-"⟩, ⟨TokType.INTEGER_LITERAL, "3"⟩, ⟨TokType.SEMICOLON, ";"⟩] 0 =
    .ok (Expression.binaryOperation "-" (Expression.intLiteral "1")
      (Expression.binaryOperation "-" (Expression.intLiteral "2")
        (Expression.intLiteral "3")), 5) :=
  c4_right_associative "-" 5 (by decide)

/-- C5: multiplicative operators bind tighter than additive ones
(`*` at 6 vs `+` at 5 in the table), so `1 + 2 * 3` parses as
`+(1, *(2, 3))`. -/
theorem c5_multiplicative_tighter :
    precOf "+" = some 5 ∧ precOf "*" = some 6 ∧
    parse_expression 20
      [⟨TokType.INTEGER_LITERAL, "1"⟩, ⟨TokType.OP, "+"⟩, ⟨TokType.INTEGER_LITERAL, "2"⟩,
       ⟨TokType.MULTIPLY, "*"⟩, ⟨TokType.INTEGER_LITERAL, "3"⟩, ⟨TokType.SEMICOLON, ";"⟩] 0 =
    .ok (Expression.binaryOperation "+" (Expression.intLiteral "1")
      (Expression.binaryOperation "*" (Expression.intLiteral "2")
        (Expression.intLiteral "3")), 5) :=
  ⟨rfl, rfl, rfl⟩

/-- C6 counterexample: a stream terminated by exactly one end-of-input
token whose type matches no requested token type and whose literal text
`")"` is not an operator (it is in neither operator table), on which
`parse` nevertheless reads past the sentinel: the parameter-list loop
compares the sentinel's literal text with ")" and advances beyond it. -/
theorem c6_reads_past_sentinel_counterexample :
    (⟨TokType.END, ")"⟩ : Token).type = TokType.END ∧
    precOf ")" = none ∧
    unary_operators.contains ")" = false ∧
    parse [⟨TokType.TYPE, "int"⟩, ⟨TokType.IDENTIFIER, "f"⟩, ⟨TokType.LPAREN, "("⟩,
      ⟨TokType.TYPE, "int"⟩, ⟨TokType.IDENTIFIER, "x"⟩, ⟨TokType.END, ")"⟩] =
      .error PError.oob :=
  ⟨rfl, rfl, rfl, rfl⟩

/-- C6 (amended): if the token sequence is terminated by exactly one
end-of-input sentinel whose type is the end-of-input tag, whose literal
text is not an operator (binary or unary), and — the strengthening the
counterexample forces — whose literal text is also neither "," nor ")"
(the texts the parameter-list loop compares against), then every token
access performed during `parse` stays within the bounds of the
sequence: `parse` never reports an out-of-bounds read. -/
theorem c6_parse_stays_in_bounds (init : Tokens) (endTok : Token)
    (h1 : endTok.type = TokType.END)
    (h2 : ∀ t ∈ init, t.type ≠ TokType.END)
    (h3 : precOf endTok.value = none)
    (h4 : unary_operators.contains endTok.value = false)
    (h5 : endTok.value ≠ ",")
    (h6 : endTok.value ≠ ")") :
    parse (init ++ [endTok]) ≠ .error PError.oob :=
  parse_ne_oob (sentinelCtx_of_append h1 h3 h4 h5 h6)

/-- C6 witness. -/
theorem c6_parse_stays_in_bounds_witness :
    parse ([⟨TokType.TYPE, "int"⟩, ⟨TokType.IDENTIFIER, "x"⟩, ⟨TokType.SEMICOLON, ";"⟩] ++
      [⟨TokType.END, ""⟩]) ≠ .error PError.oob :=
  c6_parse_stays_in_bounds
    [⟨TokType.TYPE, "int"⟩, ⟨TokType.IDENTIFIER, "x"⟩, ⟨TokType.SEMICOLON, ";"⟩]
    ⟨TokType.END, ""⟩ rfl (by decide) rfl rfl (by decide) (by decide)

/-- C7: parsing a `for` statement consumes exactly the `for` keyword
and nothing after it, whatever follows: the statement parser on a
stream starting with a FOR token returns the childless ForStatement
node with the cursor on the token immediately after the keyword, and
`parse_for_statement` itself consumes nothing. -/
theorem c7_for_consumes_only_keyword (fuel : Nat) (v : String) (rest : Tokens) :
    parse_statement (fuel + 2) (⟨TokType.FOR, v⟩ :: rest) 0 =
      .ok (Statement.forStatement, 1) ∧
    ∀ off, parse_for_statement off = .ok (Statement.forStatement, off) :=
  ⟨rfl, fun _ => rfl⟩

/-- C8: `match_token` advances the cursor by exactly one and returns
true when the current token's type is among the requested types, and
otherwise returns false leaving the cursor unchanged; `match_pattern`
returns the cursor unchanged whatever its outcome. -/
theorem c8_cursor_frame_effects :
    (∀ (ts : Tokens) (off : Nat) (t : Token) (tys : List TokType),
      ts.get? off = some t →
        (t.type ∈ tys → match_token ts tys off = .ok (true, off + 1)) ∧
        (t.type ∉ tys → match_token ts tys off = .ok (false, off))) ∧
    (∀ (ts : Tokens) (pat : List TokType) (off off' : Nat) (b : Bool),
      match_pattern ts pat off = .ok (b, off') → off' = off) := by
  constructor
  · intro ts off t tys hget
    constructor
    · intro hmem
      exact match_token_at_mem hget (by simpa using hmem)
    · intro hmem
      exact match_token_at_not hget (by simpa using hmem)
  · intro ts pat off off' b h
    unfold match_pattern at h
    cases hscan : scan_pattern ts off pat with
    | ok b2 =>
      rw [hscan] at h
      injection h with h2
      injection h2 with h3 h4
      exact h4.symm
    | error e =>
      rw [hscan] at h
      exact Except.noConfusion h

/-- C8 witness. -/
theorem c8_cursor_frame_effects_witness :
    match_token [⟨TokType.SEMICOLON, ";"⟩] [TokType.SEMICOLON] 0 = .ok (true, 1) ∧
    match_token [⟨TokType.SEMICOLON, ";"⟩] [TokType.TYPE] 0 = .ok (false, 0) ∧
    (0 : Nat) = 0 :=
  ⟨(c8_cursor_frame_effects.1 [⟨TokType.SEMICOLON, ";"⟩] 0 ⟨TokType.SEMICOLON, ";"⟩
      [TokType.SEMICOLON] rfl).1 (by decide),
   (c8_cursor_frame_effects.1 [⟨TokType.SEMICOLON, ";"⟩] 0 ⟨TokType.SEMICOLON, ";"⟩
      [TokType.TYPE] rfl).2 (by decide),
   c8_cursor_frame_effects.2 [⟨TokType.SEMICOLON, ";"⟩] [TokType.SEMICOLON] 0 0 true rfl⟩

/-- C9: after a parameter, the decision to continue or close the
parameter list compares the current token's literal text with "," and
")" rather than its type tag: here a token whose literal text is ","
but whose type is SEMICOLON (not the comma token type) is accepted as
the separator, and both parameters are parsed. -/
theorem c9_separator_by_text_not_type :
    (⟨TokType.SEMICOLON, ","⟩ : Token).type ≠ TokType.COMMA ∧
    parse [⟨TokType.TYPE, "int"⟩, ⟨TokType.IDENTIFIER, "f"⟩, ⟨TokType.LPAREN, "("⟩,
      ⟨TokType.TYPE, "int"⟩, ⟨TokType.IDENTIFIER, "x"⟩, ⟨TokType.SEMICOLON, ","⟩,
      ⟨TokType.TYPE, "int"⟩, ⟨TokType.IDENTIFIER, "y"⟩, ⟨TokType.RPAREN, ")"⟩,
      ⟨TokType.SEMICOLON, ";"⟩, ⟨TokType.END, ""⟩] =
    .ok (⟨[Declaration.funcDecl "int" (Declarator.noPtrDeclarator "f")
      [{ type := "int",
         declarator := { declarator := Declarator.noPtrDeclarator "x", initializer := none } },
       { type := "int",
         declarator := { declarator := Declarator.noPtrDeclarator "y", initializer := none } }]
      none]⟩, 11) :=
  ⟨by decide, rfl⟩

/-- C10: on the token sequence consisting solely of the end-of-input
sentinel, `parse` succeeds with a TranslationUnit containing zero
declarations, and the driver's termination check has consumed the
sentinel (the final cursor position is 1). -/
theorem c10_empty_translation_unit :
    parse [⟨TokType.END, ""⟩] = .ok (⟨[]⟩, 1) :=
  rfl
